import Mathlib

/-!
Verification of the response half of the hessian2 RPC codec (`response.go`).

The development shallowly embeds the source file:
* the Version Resolver (`version2Int`, `isSupportResponseAttachment`),
* the Value Coercion Layer (`CopySlice`, `CopyMap`, `ReflectResponse`)
  over a small model of Go's reflection universe,
* the Response Frame Builder (`packResponse`) and Parser
  (`unpackResponseBody`), with the external self-describing encoder and
  decoder abstracted at the level of one decoded dynamic value per call,
  as the specification treats them (out-of-scope collaborators).

Machine integers are modelled with `Int`/`Nat`; `strconv.Atoi`'s int64
range check is modelled explicitly, and `math.Pow10` is exact on every
exponent reachable from the inputs the specification talks about.
Go run-time panics are modelled as a distinct `crash` outcome, separate
from returned errors.
-/

namespace Hessian2

/-! ## Version Resolver (response.go lines 331-371) -/

/-- Value of a non-empty all-digit character list (used by `Atoi`). -/
def digitsVal (cs : List Char) : Option Nat :=
  if cs = [] then none
  else if cs.all (fun c => c.isDigit) then
    some (cs.foldl (fun a c => a * 10 + (c.toNat - 48)) 0)
  else none

/-- Model of Go `strconv.Atoi`: an optional sign followed by one or more
decimal digits, rejected when the value falls outside the int64 range. -/
def Atoi (s : String) : Option Int :=
  let core : Option Int :=
    match s.data with
    | '+' :: rest => (digitsVal rest).map (fun n => (n : Int))
    | '-' :: rest => (digitsVal rest).map (fun n => -(n : Int))
    | l => (digitsVal l).map (fun n => (n : Int))
  match core with
  | none => none
  | some v => if v < -(2 ^ 63 : Int) ∨ v > 2 ^ 63 - 1 then none else some v

/-- Model of Go `strings.Split(s, ".")`: splits at every dot; the empty
string yields `[""]`, and leading/trailing dots yield empty components. -/
def splitDotAux : List Char → List Char → List String
  | [], acc => [String.mk acc.reverse]
  | c :: rest, acc =>
    if c = '.' then String.mk acc.reverse :: splitDotAux rest []
    else splitDotAux rest (c :: acc)

/-- Application of `strings.Split(version, ".")` inside `version2Int`. -/
def stringsSplitDot (s : String) : List String :=
  splitDotAux s.data []

/-- Two's-complement wrap-around of Go's 64-bit `int`: the representative
of x modulo 2^64 lying in [-2^63, 2^63). -/
def wrap64 (x : Int) : Int :=
  (x + 9223372036854775808) % 18446744073709551616 - 9223372036854775808

/-- Model of `int(math.Pow10(n))` as evaluated on the mainstream Go
targets (amd64/arm64): for n ≤ 18 the float64 power is exact and inside
the int64 range, so the conversion yields 10^n; for every larger n the
(possibly rounded) float64 value exceeds every int64 — the relative
rounding error of float64 can never pull a power ≥ 10^19 below 2^63 — and
the out-of-range conversion yields the minimum int64 (the Go
specification leaves such conversions implementation-specific; this is
the behaviour of the hardware conversion instruction on amd64/arm64). -/
def pow10Int (n : Nat) : Int :=
  if n ≤ 18 then (10 : Int) ^ n else -9223372036854775808

/-- The `for key, value := range varr` loop of `version2Int`
(response.go lines 360-366): the accumulator mirrors
`v += v0 * int(math.Pow10((length-key-1)*2))` evaluated in Go's 64-bit
`int` arithmetic (every multiplication and addition wraps), and the loop
aborts with a parse failure as soon as one component is non-numeric. -/
def v2iLoop (length : Nat) : Int → Nat → List String → Option Int
  | v, _, [] => some v
  | v, key, value :: rest =>
    match Atoi value with
    | none => none
    | some v0 =>
      v2iLoop length (wrap64 (v + wrap64 (v0 * pow10Int ((length - key - 1) * 2))))
        (key + 1) rest

/-- Embedding of `version2Int` (response.go lines 356-371); the final
`v * 100` for three-component versions wraps in 64-bit `int` as well. -/
def version2Int (version : String) : Int :=
  let varr := stringsSplitDot version
  let length := varr.length
  match v2iLoop length 0 0 varr with
  | none => -1
  | some v => if length = 3 then wrap64 (v * 100) else v

/-- Modelled from the spec: `LOWEST_VERSION_FOR_RESPONSE_ATTACHMENT` is a
constant of the repository that is not under src/. The spec constrains it
only through the behaviour of `supports_attachments`: versions from
"2.6.3" upward (encoding 2060300) are supported, and the excluded band
2001000-2060200 is checked separately; the constant is the encoding of
version "2.0.2". -/
def LOWEST_VERSION_FOR_RESPONSE_ATTACHMENT : Int := 2000200

/-- The process-wide version cache `var versionInt = make(map[string]int)`
(response.go line 331), modelled as an association list. It starts empty,
and no statement of the source file ever writes to it. -/
def versionInt : List (String × Int) := []

/-- Embedding of `isSupportResponseAttachment` (response.go lines 337-354) with the
process-wide cache passed explicitly; the result is paired with the state
of the cache after the call. The source reads the cache
(`v, ok := versionInt[version]`) but contains no assignment to it, so the
returned cache is the input cache. -/
def isSupportResponseAttachmentSt (cache : List (String × Int)) (version : String) :
    Bool × List (String × Int) :=
  if version = "" then (false, cache)
  else
    let hit := cache.find? (fun p => p.1 = version)
    let vres : Option Int :=
      match hit with
      | some p => some p.2
      | none =>
        let v := version2Int version
        if v = -1 then none else some v
    match vres with
    | none => (false, cache)
    | some v =>
      if 2001000 ≤ v ∧ v ≤ 2060200 then (false, cache) -- 2.0.10 ~ 2.6.2
      else (decide (v ≥ LOWEST_VERSION_FOR_RESPONSE_ATTACHMENT), cache)

/-- Embedding of `isSupportResponseAttachment` as called from `packResponse`: the global
cache is `versionInt`, which is never written and hence always empty. -/
def isSupportResponseAttachment (version : String) : Bool :=
  (isSupportResponseAttachmentSt versionInt version).1

/-! ## A model of the Go reflection universe used by the coercion layer

The decoder hands `unpackResponseBody` dynamically-typed Go values; the
coercion layer inspects their reflect types and kinds. `GoTy` models
`reflect.Type`, `GoKind` models `reflect.Kind`, and `GoVal` models a
`reflect.Value` (the dynamic type of a `GoVal` is recovered by `typeOf`).
-/

/-- Go reflect types reachable in this codec. `tThrow` stands for the
external throwable type (a pointer to a struct). -/
inductive GoTy where
  | tInt
  | tInt32
  | tFloat64
  | tString
  | tIface
  | tThrow
  | tSlice (e : GoTy)
  | tArray (n : Nat) (e : GoTy)
  | tMap (k v : GoTy)
  | tPtr (e : GoTy)
deriving DecidableEq, Repr

/-- Go reflect kinds distinguished by the coercion layer. -/
inductive GoKind where
  | kInt
  | kInt32
  | kFloat64
  | kString
  | kIface
  | kSlice
  | kArray
  | kMap
  | kPtr
deriving DecidableEq, Repr

/-- Model of `reflect.Type.Kind()`. -/
def GoTy.kind : GoTy → GoKind
  | .tInt => .kInt
  | .tInt32 => .kInt32
  | .tFloat64 => .kFloat64
  | .tString => .kString
  | .tIface => .kIface
  | .tThrow => .kPtr
  | .tSlice _ => .kSlice
  | .tArray _ _ => .kArray
  | .tMap _ _ => .kMap
  | .tPtr _ => .kPtr

/-- Model of `reflect.Kind.String()`, as printed by `%v` in error messages. -/
def GoKind.str : GoKind → String
  | .kInt => "int"
  | .kInt32 => "int32"
  | .kFloat64 => "float64"
  | .kString => "string"
  | .kIface => "interface"
  | .kSlice => "slice"
  | .kArray => "array"
  | .kMap => "map"
  | .kPtr => "ptr"

/-- Model of `reflect.Type.String()`, as used for the `"interface {}"` /
`"*interface {}"` dispatch in `ReflectResponse` and in error messages. -/
def GoTy.str : GoTy → String
  | .tInt => "int"
  | .tInt32 => "int32"
  | .tFloat64 => "float64"
  | .tString => "string"
  | .tIface => "interface \x7b\x7d"
  | .tThrow => "*java_exception.Throwable"
  | .tSlice e => "[]" ++ e.str
  | .tArray n e => "[" ++ toString n ++ "]" ++ e.str
  | .tMap k v => "map[" ++ k.str ++ "]" ++ v.str
  | .tPtr e => "*" ++ e.str

/-- Model of `reflect.Type.AssignableTo`: on this universe a type is assignable to
itself and every type is assignable to the empty interface. -/
def AssignableTo (src dst : GoTy) : Bool :=
  src = dst || dst = GoTy.tIface

/-- A Go `reflect.Value`. Slices and maps carry an explicit nil flag
(a nil slice and an empty slice differ in Go); a pointer is nil when its
pointee is absent. `vFloat64` carries the raw IEEE bit pattern (no float
arithmetic happens in this codec); `vIfaceNil` is the nil empty-interface
value and `vThrowNil` the nil throwable pointer, the zero values of their
types. -/
inductive GoVal where
  | vInt (i : Int)
  | vInt32 (i : Int)
  | vFloat64 (bits : Nat)
  | vString (s : String)
  | vThrow (msg : String)
  | vThrowNil
  | vIfaceNil
  | vSlice (e : GoTy) (isNil : Bool) (elems : List GoVal)
  | vArr (n : Nat) (e : GoTy) (elems : List GoVal)
  | vMap (k v : GoTy) (isNil : Bool) (entries : List (GoVal × GoVal))
  | vPtr (t : GoTy) (inner : Option GoVal)

/-- Model of `reflect.Value.Type()` of a dynamic value. -/
def typeOf : GoVal → GoTy
  | .vInt _ => .tInt
  | .vInt32 _ => .tInt32
  | .vFloat64 _ => .tFloat64
  | .vString _ => .tString
  | .vThrow _ => .tThrow
  | .vThrowNil => .tThrow
  | .vIfaceNil => .tIface
  | .vSlice e _ _ => .tSlice e
  | .vArr n e _ => .tArray n e
  | .vMap k v _ _ => .tMap k v
  | .vPtr t _ => .tPtr t

/-- Model of `reflect.Value.IsNil()` on the kinds where it is defined. -/
def isNilVal : GoVal → Bool
  | .vSlice _ b _ => b
  | .vMap _ _ b _ => b
  | .vPtr _ i => i.isNone
  | .vThrowNil => true
  | .vIfaceNil => true
  | _ => false

/-- Go zero values by type, as `reflect.MakeSlice` produces for the
elements of a freshly allocated destination slice. -/
def zeroVal : GoTy → GoVal
  | .tInt => .vInt 0
  | .tInt32 => .vInt32 0
  | .tFloat64 => .vFloat64 0
  | .tString => .vString ""
  | .tIface => .vIfaceNil
  | .tThrow => .vThrowNil
  | .tSlice e => .vSlice e true []
  | .tArray n e => .vArr n e (List.replicate n (zeroVal e))
  | .tMap k v => .vMap k v true []
  | .tPtr e => .vPtr e none

/-- The `for outSlice.Kind() == reflect.Ptr { outSlice = outSlice.Elem() }`
loop: follows pointers down to a non-pointer location. `none` models the
zero `reflect.Value` produced by `Elem()` on a nil pointer (every later
use of it panics). -/
def derefPtrs : GoVal → Option GoVal
  | .vPtr _ (some v) => derefPtrs v
  | .vPtr _ none => none
  | v => some v

/-- Writes a new value at the location reached by the pointer-following
loop above: the observable effect of `outSlice.Set(...)` on the
destination the caller handed in. -/
def setAtDeref : GoVal → GoVal → GoVal
  | .vPtr t (some inner), nv => .vPtr t (some (setAtDeref inner nv))
  | _, nv => nv

/-- Modelled from the spec: `SetValue` (helper of codec.go, not under
src/) "assigns `decoded` directly with no validation"; a pointer
destination receives the value in its pointee. -/
def SetValue (dest v : GoVal) : GoVal :=
  match dest with
  | .vPtr t _ => .vPtr t (some v)
  | _ => v

/-- Modelled from the spec: `EnsurePackValue` (helper of codec.go, not
under src/) obtains the reflect value of a dynamic input; dynamic values
of this embedding are already reflect values, so it is the identity. -/
def EnsurePackValue (v : GoVal) : GoVal := v

/-- Modelled from the spec: `UnpackPtrType` (helper of codec.go, not under
src/) looks through pointer indirection on a type. -/
def UnpackPtrType : GoTy → GoTy
  | .tPtr e => UnpackPtrType e
  | t => t

/-- Outcome of a reflection-based copy: a returned value, a returned Go
`error` together with the destination as the error return leaves it
(mutations performed before the failing check are visible through the
caller's pointer), or a run-time panic (which Go does not return). -/
inductive ROut (α : Type) where
  | ok (a : α)
  | fail (msg : String) (dest : Option α)
  | crash (msg : String)

/-- The `for i := 0; i < size; i++` element loop of `CopySlice`
(response.go lines 247-254): `inSlice.Index(i).Type()` is the static
element type of the source slice and `outSlice.Index(i).Type()` the static
element type of the destination, so the per-index assignability check does
not depend on the element; the error message prints the source element
type and `outSlice.Type()` — the destination slice type. -/
def copyLoop (inE outE : GoTy) (outSliceStr : String) : List GoVal → Except String (List GoVal)
  | [] => .ok []
  | e :: rest =>
    if AssignableTo inE outE then
      match copyLoop inE outE outSliceStr rest with
      | .ok es => .ok (e :: es)
      | .error m => .error m
    else
      .error ("in element type [" ++ inE.str ++ "] can not assign to out element type ["
        ++ outSliceStr ++ "]")

/-- Embedding of `CopySlice` (response.go lines 232-257). The guards run in source
order: `inSlice.IsNil()` first — a panic for kinds on which `IsNil` is
undefined (notably arrays) — then the nil error, then the kind check,
then the pointer-following loop on the destination and
`outSlice.Set(reflect.MakeSlice(outSlice.Type(), size, size))` at line
245 — a panic when the dereferenced destination is not slice-typed,
otherwise an overwrite of the destination with a zero-filled slice of the
source's length before the element loop runs — then the element loop.
The per-index assignability check compares the two static element types,
so when it fails it fails at index 0 with no element copied: the error
return leaves the destination holding the fresh zero-filled slice. -/
def CopySlice (inSlice outSlice : GoVal) : ROut GoVal :=
  match inSlice with
  | .vSlice inE nilFlag elems =>
    if nilFlag then .fail ("@in is nil") (some outSlice)
    else
      match derefPtrs outSlice with
      | none => .crash ("reflect: call of reflect.Value.Type on zero Value")
      | some od =>
        match typeOf od with
        | .tSlice outE =>
          match copyLoop inE outE (GoTy.tSlice outE).str elems with
          | .ok es => .ok (setAtDeref outSlice (GoVal.vSlice outE false es))
          | .error m =>
            .fail m (some (setAtDeref outSlice (GoVal.vSlice outE false
              (List.replicate elems.length (zeroVal outE)))))
        | _ => .crash ("reflect.MakeSlice of non-slice type")
  | .vMap _ _ nilFlag _ =>
    if nilFlag then .fail ("@in is nil") (some outSlice)
    else .fail ("@in is not slice, but " ++ GoKind.kMap.str) (some outSlice)
  | .vPtr _ inner =>
    if inner.isNone then .fail ("@in is nil") (some outSlice)
    else .fail ("@in is not slice, but " ++ GoKind.kPtr.str) (some outSlice)
  | .vThrow _ => .fail ("@in is not slice, but " ++ GoKind.kPtr.str) (some outSlice)
  | .vThrowNil => .fail ("@in is nil") (some outSlice)
  | .vIfaceNil => .fail ("@in is nil") (some outSlice)
  | .vArr _ _ _ => .crash ("reflect: call of reflect.Value.IsNil on array Value")
  | .vInt _ => .crash ("reflect: call of reflect.Value.IsNil on int Value")
  | .vInt32 _ => .crash ("reflect: call of reflect.Value.IsNil on int32 Value")
  | .vFloat64 _ => .crash ("reflect: call of reflect.Value.IsNil on float64 Value")
  | .vString _ => .crash ("reflect: call of reflect.Value.IsNil on string Value")

/-- Rendering of `%#v` of a reflect value inside the error messages of `CopyMap` (the exact
rendering is irrelevant to every claim; a best-effort formatter). -/
def GoVal.fmt : GoVal → String
  | .vInt i => toString i
  | .vInt32 i => toString i
  | .vFloat64 b => "float64bits(" ++ toString b ++ ")"
  | .vString s => "\x22" ++ s ++ "\x22"
  | .vThrow m => "&java_exception.Throwable\x7b" ++ m ++ "\x7d"
  | .vThrowNil => "(*java_exception.Throwable)(nil)"
  | .vIfaceNil => "<nil>"
  | .vSlice e _ _ => "[]" ++ e.str ++ "\x7b...\x7d"
  | .vArr n e _ => "[" ++ toString n ++ "]" ++ e.str ++ "\x7b...\x7d"
  | .vMap k v _ _ => "map[" ++ k.str ++ "]" ++ v.str ++ "\x7b...\x7d"
  | .vPtr t _ => "(*" ++ t.str ++ ")(...)"

/-- The `for _, inKey := range inMapValue.MapKeys()` loop of `CopyMap`
(response.go lines 279-291): `MapKeys()` and `MapIndex` yield values whose
types are the static key/value types of the source map. -/
def mapLoop (inK inV outK outV : GoTy) : List (GoVal × GoVal) → Except String (List (GoVal × GoVal))
  | [] => .ok []
  | (k, v) :: rest =>
    if ¬ AssignableTo inK outK then
      .error ("in Key:\x7btype:" ++ inK.str ++ ", value:" ++ k.fmt
        ++ "\x7d can not assign to out Key:\x7btype:" ++ outK.str ++ "\x7d ")
    else if ¬ AssignableTo inV outV then
      .error ("in Value:\x7btype:" ++ inV.str ++ ", value:" ++ v.fmt
        ++ "\x7d can not assign to out value:\x7btype:" ++ outV.str ++ "\x7d")
    else
      match mapLoop inK inV outK outV rest with
      | .ok es => .ok ((k, v) :: es)
      | .error m => .error m

/-- Embedding of `CopyMap` (response.go lines 260-294): nil check, kind check,
then `SetValue(outMapValue, reflect.MakeMap(UnpackPtrType(...)))` at line
272 — a panic when the unpacked destination type is not a map, otherwise
an overwrite of the destination with a fresh empty map before the loop —
then the key/value loop. The key/value checks compare static types, so a
failure happens at the first entry with nothing inserted: the error
return leaves the destination holding the fresh empty map.
(`CanInterface` is always true for values reaching this code, and is
therefore not modelled as a separate failure.) -/
def CopyMap (inMapValue outMapValue : GoVal) : ROut GoVal :=
  match inMapValue with
  | .vMap inK inV nilFlag entries =>
    if nilFlag then .fail ("@in is nil") (some outMapValue)
    else
      match UnpackPtrType (typeOf outMapValue) with
      | .tMap outK outV =>
        match mapLoop inK inV outK outV entries with
        | .ok es => .ok (SetValue outMapValue (GoVal.vMap outK outV false es))
        | .error m =>
          .fail m (some (SetValue outMapValue (GoVal.vMap outK outV false [])))
      | _ => .crash ("reflect.MakeMap of non-map type")
  | .vSlice _ nilFlag _ =>
    if nilFlag then .fail ("@in is nil") (some outMapValue)
    else .fail ("@in is not map, but " ++ GoKind.kSlice.str) (some outMapValue)
  | .vPtr _ inner =>
    if inner.isNone then .fail ("@in is nil") (some outMapValue)
    else .fail ("@in is not map, but " ++ GoKind.kPtr.str) (some outMapValue)
  | .vThrow _ => .fail ("@in is not map, but " ++ GoKind.kPtr.str) (some outMapValue)
  | .vThrowNil => .fail ("@in is nil") (some outMapValue)
  | .vIfaceNil => .fail ("@in is nil") (some outMapValue)
  | .vArr _ _ _ => .crash ("reflect: call of reflect.Value.IsNil on array Value")
  | .vInt _ => .crash ("reflect: call of reflect.Value.IsNil on int Value")
  | .vInt32 _ => .crash ("reflect: call of reflect.Value.IsNil on int32 Value")
  | .vFloat64 _ => .crash ("reflect: call of reflect.Value.IsNil on float64 Value")
  | .vString _ => .crash ("reflect: call of reflect.Value.IsNil on string Value")

/-- Embedding of `ReflectResponse` (response.go lines 298-329): nil guards, the
`@out should be a pointer` guard, the `"interface {}"` /
`"*interface {}"` escape hatch on the printed destination type, then the
kind dispatch of the decoded value (slice/array to `CopySlice`, map to
`CopyMap`, everything else assigned directly). The returned value is the
destination after the copy. -/
def ReflectResponse (inV : Option GoVal) (out : Option GoVal) : ROut GoVal :=
  match inV with
  | none => .fail ("@in is nil") out
  | some iv =>
    match out with
    | none => .fail ("@out is nil") none
    | some ov =>
      if (typeOf ov).kind ≠ GoKind.kPtr then .fail ("@out should be a pointer") (some ov)
      else
        let inValue := EnsurePackValue iv
        let outType := (typeOf ov).str
        if outType = "interface \x7b\x7d" ∨ outType = "*interface \x7b\x7d" then
          .ok (SetValue ov inValue)
        else
          match (typeOf inValue).kind with
          | .kSlice => CopySlice inValue ov
          | .kArray => CopySlice inValue ov
          | .kMap => CopyMap inValue ov
          | _ => .ok (SetValue ov inValue)

/-! ## Response frames (response.go lines 33-229)

The external encoder/decoder pair is the out-of-scope self-describing
serialization: the body of a frame is modelled as the sequence of dynamic
values fed to `Encoder.Encode` (`HVal`), and byte-level frames are
obtained by abstracting over an arbitrary per-value byte encoding. -/

/-- One dynamic value handed to the external encoder / produced by the
external decoder. `hObj` wraps an arbitrary result value, `hThrowable` the
external throwable carrying a message, `hAttach` a `map[string]string`. -/
inductive HVal where
  | hNull
  | hInt32 (i : Int)
  | hString (s : String)
  | hThrowable (msg : String)
  | hAttach (m : List (String × String))
  | hObj (v : GoVal)

/-- The dynamic Go value produced by decoding an `HVal`
(`nil` for the null marker). -/
def HVal.toGo : HVal → Option GoVal
  | .hNull => none
  | .hInt32 i => some (GoVal.vInt32 i)
  | .hString s => some (GoVal.vString s)
  | .hThrowable m => some (GoVal.vThrow m)
  | .hAttach m => some (GoVal.vMap .tString .tString false
      (m.map (fun p => (GoVal.vString p.1, GoVal.vString p.2))))
  | .hObj v => some v

/-- Rendering of `%+v` of a decoded dynamic value (only the shape of the message
matters to the claims; a best-effort formatter). -/
def HVal.fmt : HVal → String
  | .hNull => "<nil>"
  | .hInt32 i => toString i
  | .hString s => s
  | .hThrowable m => "&java_exception.Throwable\x7b" ++ m ++ "\x7d"
  | .hAttach _ => "map[...]"
  | .hObj v => v.fmt

/-- Embedding of `Response` (response.go lines 33-37). The exception collaborator is
abstracted to the message it carries. -/
structure Response where
  RspObj : Option GoVal
  Exception : Option String
  Attachments : List (String × String)

/-- The `interface{}` argument of `packResponse`/`unpackResponseBody`:
a `*Response`, a plain `error`, or any other value. -/
inductive RetInput where
  | resp (r : Response)
  | errIn (msg : String)
  | objIn (v : Option GoVal)

/-- Embedding of `EnsureResponse` (response.go lines 51-59); `NewResponse` replaces nil
attachments with an empty map. -/
def EnsureResponse : RetInput → Response
  | .resp r => r
  | .errIn m => { RspObj := none, Exception := some m, Attachments := [] }
  | .objIn v => { RspObj := v, Exception := none, Attachments := [] }

/-- Modelled from the spec: the package-kind enum selecting the header
template (the numeric constants live outside src/); the builder only
distinguishes heartbeat from the rest. -/
inductive PackageType where
  | request
  | response
  | heartbeat
deriving DecidableEq, Repr

/-- The `PackageHeartbeat` constant compared against `header.Type`. -/
def PackageHeartbeat : PackageType := .heartbeat

/-- Model of `DubboHeader` as consumed by `packResponse`: serialization id byte,
package kind, status byte and 64-bit correlation id. -/
structure DubboHeader where
  SerialID : Nat
  Type' : PackageType
  ResponseStatus : Nat
  ID : Int

/-- Header length in bytes (constant of the repository outside src/;
the spec fixes it: "header is always exactly 16 bytes"). -/
def HEADER_LENGTH : Nat := 16

/-- Maximum frame size (constant outside src/; the spec fixes it to
8 MiB). -/
def DEFAULT_LEN : Nat := 8388608

/-- Mask for the serialization id (constant outside src/; the spec fixes
it: the id occupies the low 5 bits of byte 2). -/
def SERIAL_MASK : Nat := 31

/-- The OK status byte (constant outside src/; the spec fixes it:
status 20 means OK). -/
def Response_OK : Nat := 20

/-- Modelled from the spec: the well-known attachments key carrying the
peer protocol version (constant outside src/). -/
def DUBBO_VERSION_KEY : String := "dubbo"

/-- Modelled from the spec: the six distinct body discriminator constants
(their numeric values live outside src/). -/
def RESPONSE_WITH_EXCEPTION : Int := 0

/-- Plain value tag. -/
def RESPONSE_VALUE : Int := 1

/-- Plain null tag. -/
def RESPONSE_NULL_VALUE : Int := 2

/-- Null tag, attachment-aware. -/
def RESPONSE_NULL_VALUE_WITH_ATTACHMENTS : Int := 3

/-- Value tag, attachment-aware. -/
def RESPONSE_VALUE_WITH_ATTACHMENTS : Int := 4

/-- Exception tag, attachment-aware. -/
def RESPONSE_WITH_EXCEPTION_WITH_ATTACHMENTS : Int := 5

/-- Modelled from the spec: the 16-byte normal-response header template
(magic in bytes 0-1, kind/flag marker in byte 2, the OK status as the
template's byte 3, zeros elsewhere); the exact bytes live outside src/ and
no claim depends on them. -/
def DubboResponseHeaderBytes : List Nat :=
  [218, 187, 2, 20, 0, 0, 0, 0, 0, 0, 0, 0, 0, 0, 0, 0]

/-- Modelled from the spec: the 16-byte heartbeat-response header template
(byte 2 additionally carries the event marker). -/
def DubboResponseHeartbeatHeader : List Nat :=
  [218, 187, 34, 20, 0, 0, 0, 0, 0, 0, 0, 0, 0, 0, 0, 0]

/-- Go map indexing `m[k]` on a `map[string]string`: the zero value `""`
when the key is absent. -/
def mapGet (m : List (String × String)) (k : String) : String :=
  match m.find? (fun p => p.1 = k) with
  | some p => p.2
  | none => ""

/-- The sequence of values fed to the external encoder by `packResponse`
(response.go lines 93-141): heartbeats encode a single null; an OK status
selects the plain or attachment-aware tag set from the peer version found
in the attachments, then encodes exception/value/null accordingly,
followed by the attachments when the attachment-aware set was chosen; a
non-OK status encodes the exception message or the raw value, untagged. -/
def packBodyValues (header : DubboHeader) (response : Response) : List HVal :=
  let hb := header.Type' = PackageHeartbeat
  if header.ResponseStatus = Response_OK then
    if hb then [HVal.hNull]
    else
      let atta := isSupportResponseAttachment (mapGet response.Attachments DUBBO_VERSION_KEY)
      let resWithException :=
        if atta then RESPONSE_WITH_EXCEPTION_WITH_ATTACHMENTS else RESPONSE_WITH_EXCEPTION
      let resValue := if atta then RESPONSE_VALUE_WITH_ATTACHMENTS else RESPONSE_VALUE
      let resNullValue :=
        if atta then RESPONSE_NULL_VALUE_WITH_ATTACHMENTS else RESPONSE_NULL_VALUE
      let core :=
        match response.Exception with
        | some m => [HVal.hInt32 resWithException, HVal.hThrowable m]
        | none =>
          match response.RspObj with
          | none => [HVal.hInt32 resNullValue]
          | some v => [HVal.hInt32 resValue, HVal.hObj v]
      core ++ (if atta then [HVal.hAttach response.Attachments] else [])
  else
    match response.Exception with
    | some m => [HVal.hString m]
    | none =>
      match response.RspObj with
      | none => [HVal.hNull]
      | some v => [HVal.hObj v]

/-- Big-endian bytes of a 64-bit word
(`binary.BigEndian.PutUint64`). -/
def be64 (u : Nat) : List Nat :=
  [u >>> 56 &&& 255, u >>> 48 &&& 255, u >>> 40 &&& 255, u >>> 32 &&& 255,
   u >>> 24 &&& 255, u >>> 16 &&& 255, u >>> 8 &&& 255, u &&& 255]

/-- Big-endian bytes of a 32-bit word
(`binary.BigEndian.PutUint32`). -/
def be32 (u : Nat) : List Nat :=
  [u >>> 24 &&& 255, u >>> 16 &&& 255, u >>> 8 &&& 255, u &&& 255]

/-- Overwrites `bs.length` bytes of `arr` starting at offset `off`
(writing into a sub-slice `arr[off:]`). -/
def putBytes (arr : List Nat) (off : Nat) (bs : List Nat) : List Nat :=
  arr.take off ++ bs ++ arr.drop (off + bs.length)

/-- Concatenation of the per-value byte encodings appended by the
encoder. -/
def flattenBytes : List (List Nat) → List Nat
  | [] => []
  | l :: ls => l ++ flattenBytes ls

/-- Modelled from the spec: `encNull` (helper outside src/) appends the
defensive trailing terminator byte required by the encoding format
(the encoding's null tag `'N'`). -/
def encNull (b : List Nat) : List Nat := b ++ [78]

/-- The 16 header bytes assembled by `packResponse` before body encoding
(response.go lines 74-87): the kind-selected template, the serialization
id OR-ed into byte 2, the status written into byte 3 only when non-zero,
and the correlation id written big-endian into bytes 4-11 (`uint64`
conversion of the signed id). -/
def mkHeaderBytes (header : DubboHeader) : List Nat :=
  let tmpl := if header.Type' = PackageHeartbeat
    then DubboResponseHeartbeatHeader else DubboResponseHeaderBytes
  let a1 := tmpl.set 2 ((tmpl.getD 2 0) ||| (header.SerialID &&& SERIAL_MASK))
  let a2 := if header.ResponseStatus ≠ 0 then a1.set 3 header.ResponseStatus else a1
  putBytes a2 4 (be64 ((header.ID % (2 : Int) ^ 64).toNat))

/-- The full encoder buffer of `packResponse` before the oversize check
and the length patch (response.go lines 90-144): the 16 header bytes, the
body values encoded by the abstract per-value encoding `enc`, and the
trailing terminator byte. -/
def packBuffer (enc : HVal → List Nat) (header : DubboHeader) (ret : RetInput) : List Nat :=
  let response := EnsureResponse ret
  encNull (mkHeaderBytes header ++ flattenBytes ((packBodyValues header response).map enc))

/-- Embedding of `packResponse` (response.go lines 64-153), abstracted over the
external per-value byte encoding `enc`: builds the buffer, rejects frames
longer than `DEFAULT_LEN` with an error naming the actual and maximum
sizes (returning no bytes), and otherwise patches bytes 12-15 with the
big-endian body length (total length minus the header length). -/
def packResponse (enc : HVal → List Nat) (header : DubboHeader) (ret : RetInput) :
    Except String (List Nat) :=
  let byteArray := packBuffer enc header ret
  let pkgLen := byteArray.length
  if pkgLen > DEFAULT_LEN then
    .error ("Data length " ++ toString pkgLen ++ " too large, max payload "
      ++ toString DEFAULT_LEN)
  else
    .ok (putBytes byteArray 12 (be32 ((pkgLen - HEADER_LENGTH) % 2 ^ 32)))

/-- Model of `Decoder.Decode`: yields the next dynamic value of the body and
advances the cursor; fails (EOF) on an exhausted body. -/
def Decode : List HVal → Except String (HVal × List HVal)
  | [] => .error ("EOF")
  | v :: rest => .ok (v, rest)

/-- Outcome of `unpackResponseBody`: success or a returned error, each
carrying the state of the destination `Response` at the return point, or
a run-time panic. -/
inductive UOut where
  | uok (r : Response)
  | uerr (msg : String) (r : Response)
  | ucrash (msg : String)

/-- The exception stored by the parser's exception branch (response.go
lines 185-189): a decoded value satisfying the error contract is stored
as is, anything else is wrapped as `got exception: %+v`. -/
def exceptionOf : HVal → String
  | .hThrowable m => m
  | other => "got exception: " ++ other.fmt

/-- The `ReflectResponse(rsp, response.RspObj)` step of the parser's value
branch (response.go line 210), recording the updated destination on
success, and on failure the destination as the coercion's error return
left it (mutations performed through the destination pointer before the
failing check included). `perrors.WithStack` preserves the message of a
propagated error. -/
def reflectStep (rsp : HVal) (response : Response) : UOut :=
  match ReflectResponse rsp.toGo response.RspObj with
  | .ok updated => .uok { response with RspObj := some updated }
  | .fail m dest => .uerr m { response with RspObj := dest }
  | .crash m => .ucrash m

/-- Embedding of `unpackResponseBody` (response.go lines 156-229): decodes the
discriminator, dispatches on the six tag constants (an `int32`-typed
decoded value is required for the `switch` on `int32` constants to
match), decodes the 0-2 payload values of the branch — attachments are
type-checked and stored as they are decoded (the failed type assertion
prints the zero map) — and treats every other discriminator as a no-op
success. -/
def unpackResponseBody (buf : List HVal) (resp : RetInput) : UOut :=
  match Decode buf with
  | .error e => .uerr e (EnsureResponse resp)
  | .ok (rspType, buf1) =>
    let response := EnsureResponse resp
    match rspType with
    | .hInt32 i =>
      if i = RESPONSE_WITH_EXCEPTION ∨ i = RESPONSE_WITH_EXCEPTION_WITH_ATTACHMENTS then
        match Decode buf1 with
        | .error e => .uerr e response
        | .ok (expt, buf2) =>
          if i = RESPONSE_WITH_EXCEPTION_WITH_ATTACHMENTS then
            match Decode buf2 with
            | .error e => .uerr e response
            | .ok (attachments, _) =>
              match attachments with
              | .hAttach atta =>
                .uok { response with Attachments := atta, Exception := some (exceptionOf expt) }
              | _ => .uerr ("get wrong attachments: map[]") response
          else
            .uok { response with Exception := some (exceptionOf expt) }
      else if i = RESPONSE_VALUE ∨ i = RESPONSE_VALUE_WITH_ATTACHMENTS then
        match Decode buf1 with
        | .error e => .uerr e response
        | .ok (rsp, buf2) =>
          if i = RESPONSE_VALUE_WITH_ATTACHMENTS then
            match Decode buf2 with
            | .error e => .uerr e response
            | .ok (attachments, _) =>
              match attachments with
              | .hAttach atta =>
                reflectStep rsp { response with Attachments := atta }
              | _ => .uerr ("get wrong attachments: map[]") response
          else
            reflectStep rsp response
      else if i = RESPONSE_NULL_VALUE ∨ i = RESPONSE_NULL_VALUE_WITH_ATTACHMENTS then
        if i = RESPONSE_NULL_VALUE_WITH_ATTACHMENTS then
          match Decode buf1 with
          | .error e => .uerr e response
          | .ok (attachments, _) =>
            match attachments with
            | .hAttach atta => .uok { response with Attachments := atta }
            | _ => .uerr ("get wrong attachments: map[]") response
        else .uok response
      else .uok response
    | _ => .uok response

/-- The integer described by the spec's words for `version2Int`: the
numeric components read as base-100 digits ("each component occupies two
decimal digits"), most-significant component first. -/
def base100Value (vs : List Int) : Int :=
  vs.foldl (fun acc a => acc * 100 + a) 0

/-! ## Helper lemmas -/

/-- No non-nil dynamic reflect value is typed as the empty interface
(`reflect.ValueOf` always yields the concrete type; the only
interface-typed value of the model is the nil interface). -/
theorem typeOf_ne_iface (v : GoVal) (hnil : isNilVal v = false) :
    typeOf v ≠ GoTy.tIface := by
  cases v <;> simp_all [typeOf, isNilVal]

/-- Only the empty-interface type prints as `"interface {}"`. -/
theorem str_ne_iface (t : GoTy) (ht : t ≠ GoTy.tIface) : t.str ≠ "interface \x7b\x7d" := by
  intro h
  cases t with
  | tIface => exact ht rfl
  | tInt => exact absurd h (by decide)
  | tInt32 => exact absurd h (by decide)
  | tFloat64 => exact absurd h (by decide)
  | tString => exact absurd h (by decide)
  | tThrow => exact absurd h (by decide)
  | tSlice e =>
    have h2 := congrArg String.data h
    simp [GoTy.str, String.data_append] at h2
  | tArray n e =>
    have h2 := congrArg String.data h
    simp [GoTy.str, String.data_append] at h2
  | tMap k w =>
    have h2 := congrArg String.data h
    simp [GoTy.str, String.data_append] at h2
  | tPtr e =>
    have h2 := congrArg String.data h
    simp [GoTy.str, String.data_append] at h2

/-- A pointer type never prints as either string of the
`ReflectResponse` escape hatch unless it points to the empty interface. -/
theorem ptr_str_cases (t : GoTy) (ht : t ≠ GoTy.tIface) :
    ¬ ((GoTy.tPtr t).str = "interface \x7b\x7d" ∨ (GoTy.tPtr t).str = "*interface \x7b\x7d") := by
  intro hc
  cases hc with
  | inl h1 =>
    have h2 := congrArg String.data h1
    simp [GoTy.str, String.data_append] at h2
  | inr h1 =>
    have h2 := congrArg String.data h1
    simp [GoTy.str, String.data_append] at h2
    exact str_ne_iface t ht (String.ext h2)

/-- Closed form of the element loop of `CopySlice`: the per-index check
compares the two static element types, so the loop fails on a non-empty
source with unassignable element types and otherwise copies every
element. -/
theorem copyLoop_spec (inE outE : GoTy) (ss : String) (elems : List GoVal) :
    copyLoop inE outE ss elems =
      (if elems.isEmpty = false ∧ AssignableTo inE outE = false then
        Except.error ("in element type [" ++ inE.str ++ "] can not assign to out element type ["
          ++ ss ++ "]")
      else Except.ok elems) := by
  induction elems with
  | nil => simp [copyLoop]
  | cons e rest ih =>
    by_cases ha : AssignableTo inE outE
    · simp [copyLoop, ha, ih]
    · simp only [Bool.not_eq_true] at ha
      simp [copyLoop, ha]

/-- The key/value loop of `CopyMap` succeeds when source and destination
key/value types coincide. -/
theorem mapLoop_refl (k w : GoTy) (entries : List (GoVal × GoVal)) :
    mapLoop k w k w entries = .ok entries := by
  induction entries with
  | nil => rfl
  | cons p rest ih =>
    cases p
    simp [mapLoop, AssignableTo, ih]

/-- Coercing a non-nil, non-array dynamic value into a matching-typed
pointer destination succeeds and stores the value in the pointee. -/
theorem reflect_matching (v c₀ : GoVal) (hnil : isNilVal v = false)
    (harr : (typeOf v).kind ≠ GoKind.kArray) (hty : typeOf c₀ = typeOf v) :
    ReflectResponse (some v) (some (GoVal.vPtr (typeOf v) (some c₀)))
      = .ok (GoVal.vPtr (typeOf v) (some v)) := by
  have hpar := ptr_str_cases (typeOf v) (typeOf_ne_iface v hnil)
  cases v with
  | vInt i =>
    simp [ReflectResponse, EnsurePackValue, typeOf, GoTy.kind, GoTy.str, SetValue]
  | vInt32 i =>
    simp [ReflectResponse, EnsurePackValue, typeOf, GoTy.kind, GoTy.str, SetValue]
  | vFloat64 b =>
    simp [ReflectResponse, EnsurePackValue, typeOf, GoTy.kind, GoTy.str, SetValue]
  | vString s =>
    simp [ReflectResponse, EnsurePackValue, typeOf, GoTy.kind, GoTy.str, SetValue]
  | vThrow m =>
    simp [ReflectResponse, EnsurePackValue, typeOf, GoTy.kind, GoTy.str, SetValue]
  | vThrowNil => simp [isNilVal] at hnil
  | vIfaceNil => simp [isNilVal] at hnil
  | vPtr t inner =>
    simp only [typeOf] at hpar ⊢
    simp [ReflectResponse, EnsurePackValue, typeOf, GoTy.kind, SetValue, if_neg hpar]
  | vArr n e es =>
    exact absurd rfl harr
  | vSlice e b elems =>
    simp only [isNilVal] at hnil
    subst hnil
    simp only [typeOf] at hpar hty ⊢
    cases c₀ with
    | vSlice e' b' es' =>
      simp only [typeOf, GoTy.tSlice.injEq] at hty
      subst hty
      simp [ReflectResponse, EnsurePackValue, typeOf, GoTy.kind, if_neg hpar, CopySlice,
        derefPtrs, copyLoop_spec, AssignableTo, setAtDeref]
    | vInt i => simp [typeOf] at hty
    | vInt32 i => simp [typeOf] at hty
    | vString s => simp [typeOf] at hty
    | vThrow m => simp [typeOf] at hty
    | vThrowNil => simp [typeOf] at hty
    | vIfaceNil => simp [typeOf] at hty
    | vFloat64 b'' => simp [typeOf] at hty
    | vArr n' e' es' => simp [typeOf] at hty
    | vMap k' w' b' en' => simp [typeOf] at hty
    | vPtr t' i' => simp [typeOf] at hty
  | vMap k w b entries =>
    simp only [isNilVal] at hnil
    subst hnil
    simp only [typeOf] at hpar ⊢
    simp [ReflectResponse, EnsurePackValue, typeOf, GoTy.kind, if_neg hpar, CopyMap,
      UnpackPtrType, mapLoop_refl, SetValue]

/-! ## The claims -/

/-- C1 (amended): for every non-heartbeat header with status OK and every
outcome carrying a non-nil, non-array-shaped value and no exception,
building the body with `packBodyValues` (the sequence of values
`packResponse` feeds the external encoder; the byte encoder/decoder pair
is modelled as inverses, per the claim) and parsing it with
`unpackResponseBody` into a destination pointer of the value's own type
stores the original value in the destination. -/
theorem value_roundtrip_ok (header : DubboHeader) (v c₀ : GoVal)
    (atts destAtts : List (String × String))
    (hok : header.ResponseStatus = Response_OK)
    (hhb : header.Type' ≠ PackageHeartbeat)
    (hnil : isNilVal v = false)
    (harr : (typeOf v).kind ≠ GoKind.kArray)
    (hty : typeOf c₀ = typeOf v) :
    unpackResponseBody
      (packBodyValues header ⟨some v, none, atts⟩)
      (.resp ⟨some (GoVal.vPtr (typeOf v) (some c₀)), none, destAtts⟩)
    = .uok ⟨some (GoVal.vPtr (typeOf v) (some v)), none,
        if isSupportResponseAttachment (mapGet atts DUBBO_VERSION_KEY) then atts else destAtts⟩ := by
  have hrm := reflect_matching v c₀ hnil harr hty
  by_cases hatta : isSupportResponseAttachment (mapGet atts DUBBO_VERSION_KEY)
  · simp [packBodyValues, hok, hhb, hatta, unpackResponseBody, Decode,
      RESPONSE_WITH_EXCEPTION, RESPONSE_WITH_EXCEPTION_WITH_ATTACHMENTS,
      RESPONSE_VALUE, RESPONSE_VALUE_WITH_ATTACHMENTS,
      RESPONSE_NULL_VALUE, RESPONSE_NULL_VALUE_WITH_ATTACHMENTS,
      EnsureResponse, reflectStep, HVal.toGo, hrm]
  · simp [packBodyValues, hok, hhb, hatta, unpackResponseBody, Decode,
      RESPONSE_WITH_EXCEPTION, RESPONSE_WITH_EXCEPTION_WITH_ATTACHMENTS,
      RESPONSE_VALUE, RESPONSE_VALUE_WITH_ATTACHMENTS,
      RESPONSE_NULL_VALUE, RESPONSE_NULL_VALUE_WITH_ATTACHMENTS,
      EnsureResponse, reflectStep, HVal.toGo, hrm]

/-- C1 witness: the round trip of the value `7` through a normal OK frame
into a matching `*int` destination. -/
theorem value_roundtrip_ok_witness :
    unpackResponseBody
      (packBodyValues ⟨2, PackageType.response, 20, 1⟩ ⟨some (GoVal.vInt 7), none, []⟩)
      (.resp ⟨some (GoVal.vPtr GoTy.tInt (some (GoVal.vInt 0))), none, []⟩)
    = .uok ⟨some (GoVal.vPtr GoTy.tInt (some (GoVal.vInt 7))), none, []⟩ := by
  have h := value_roundtrip_ok ⟨2, PackageType.response, 20, 1⟩ (GoVal.vInt 7) (GoVal.vInt 0)
    [] [] rfl (by decide) rfl (by decide) rfl
  simpa using h

/-- C1 counterexample: the claim as stated quantifies over every header
with status OK, but a heartbeat header encodes a lone null marker, so the
parser leaves the destination untouched (it still holds `0`, not the
original `7`); and an array-shaped value makes the parse panic inside
`CopySlice` rather than yield the value. -/
theorem value_roundtrip_cex :
    (unpackResponseBody
      (packBodyValues ⟨2, PackageHeartbeat, Response_OK, 1⟩ ⟨some (GoVal.vInt 7), none, []⟩)
      (.resp ⟨some (GoVal.vPtr GoTy.tInt (some (GoVal.vInt 0))), none, []⟩)
    = .uok ⟨some (GoVal.vPtr GoTy.tInt (some (GoVal.vInt 0))), none, []⟩)
  ∧ (UOut.uok ⟨some (GoVal.vPtr GoTy.tInt (some (GoVal.vInt 0))), none, []⟩
      ≠ UOut.uok ⟨some (GoVal.vPtr GoTy.tInt (some (GoVal.vInt 7))), none, []⟩)
  ∧ (unpackResponseBody
      (packBodyValues ⟨2, PackageType.response, Response_OK, 1⟩
        ⟨some (GoVal.vArr 1 GoTy.tInt [GoVal.vInt 7]), none, []⟩)
      (.resp ⟨some (GoVal.vPtr (GoTy.tArray 1 GoTy.tInt)
        (some (GoVal.vArr 1 GoTy.tInt [GoVal.vInt 0]))), none, []⟩)
    = .ucrash ("reflect: call of reflect.Value.IsNil on array Value")) := by
  refine ⟨rfl, ?_, rfl⟩
  simp

/-- Folding base-100 digits from an arbitrary accumulator. -/
theorem foldl_base100 (vs : List Int) (acc : Int) :
    vs.foldl (fun a b => a * 100 + b) acc = acc * 100 ^ vs.length + base100Value vs := by
  induction vs generalizing acc with
  | nil => simp [base100Value]
  | cons a rest ih =>
    have hb : base100Value (a :: rest) = a * 100 ^ rest.length + base100Value rest := by
      simp only [base100Value, List.foldl_cons, zero_mul, zero_add]
      exact ih a
    simp only [List.foldl_cons]
    rw [ih (acc * 100 + a), hb, List.length_cons]
    ring

/-- Peeling the leading base-100 digit. -/
theorem base100Value_cons (a : Int) (vs : List Int) :
    base100Value (a :: vs) = a * 100 ^ vs.length + base100Value vs := by
  simp only [base100Value, List.foldl_cons, zero_mul, zero_add]
  exact foldl_base100 vs a

/-- `filterMap` over a list of all-parsing components keeps the length. -/
theorem filterMap_length_all (l : List String) (hall : ∀ c ∈ l, (Atoi c).isSome) :
    (l.filterMap Atoi).length = l.length := by
  induction l with
  | nil => rfl
  | cons c rest ih =>
    obtain ⟨a, ha⟩ := Option.isSome_iff_exists.mp (hall c (by simp))
    simp [List.filterMap_cons, ha, ih (fun x hx => hall x (by simp [hx]))]

/-- Result of `wrap64` is already in the int64 range: wrapping is
idempotent. -/
theorem wrap64_wrap64 (x : Int) : wrap64 (wrap64 x) = wrap64 x := by
  unfold wrap64
  omega

/-- Chaining one loop iteration's wrapped add of a wrapped product equals
a single wrap of the exact sum. -/
theorem wrap64_chain (v c b : Int) :
    wrap64 (wrap64 (v + wrap64 c) + b) = wrap64 (v + c + b) := by
  unfold wrap64
  omega

/-- Wrapping the left factor first does not change a wrapped product. -/
theorem wrap64_mul_left (a b : Int) : wrap64 (wrap64 a * b) = wrap64 (a * b) := by
  have hk : wrap64 a = a + 18446744073709551616 *
      (-((a + 9223372036854775808) / 18446744073709551616)) := by
    unfold wrap64
    omega
  rw [hk, show (a + 18446744073709551616 *
      (-((a + 9223372036854775808) / 18446744073709551616))) * b
      = a * b + 18446744073709551616 *
        (-((a + 9223372036854775808) / 18446744073709551616) * b) by ring]
  generalize a * b = x
  generalize -((a + 9223372036854775808) / 18446744073709551616) * b = y
  unfold wrap64
  omega

/-- When every component parses and the version has at most 10 components
(so every `int(math.Pow10)` weight is exact), the loop of `version2Int`
computes the int64 wrap of the accumulator plus the base-100 positional
value of the parsed components. -/
theorem v2iLoop_some (l : List String) (key length : Nat) (v : Int)
    (hlen : key + l.length = length) (hsmall : length ≤ 10)
    (hv : wrap64 v = v)
    (hall : ∀ c ∈ l, (Atoi c).isSome) :
    v2iLoop length v key l = some (wrap64 (v + base100Value (l.filterMap Atoi))) := by
  induction l generalizing key v with
  | nil =>
    simp only [v2iLoop, List.filterMap_nil, base100Value, List.foldl_nil, add_zero, hv]
  | cons c rest ih =>
    obtain ⟨a, ha⟩ := Option.isSome_iff_exists.mp (hall c (by simp))
    have hrest : ∀ x ∈ rest, (Atoi x).isSome := fun x hx => hall x (by simp [hx])
    have hlen' : (key + 1) + rest.length = length := by
      simp only [List.length_cons] at hlen
      omega
    have hflen : (rest.filterMap Atoi).length = rest.length := filterMap_length_all rest hrest
    have hsub : length - key - 1 = rest.length := by omega
    have hpow : pow10Int ((length - key - 1) * 2) = (100 : Int) ^ rest.length := by
      rw [hsub]
      have h18 : rest.length * 2 ≤ 18 := by omega
      simp only [pow10Int, if_pos h18]
      rw [show rest.length * 2 = 2 * rest.length from Nat.mul_comm _ _, pow_mul]
      norm_num
    simp only [v2iLoop, ha, hpow]
    rw [ih _ _ hlen' (wrap64_wrap64 _) hrest]
    simp only [List.filterMap_cons, ha, base100Value_cons, hflen]
    rw [wrap64_chain, add_assoc]

/-- A non-numeric component anywhere aborts the loop of `version2Int`. -/
theorem v2iLoop_none (l : List String) (key length : Nat) (v : Int)
    (hbad : ∃ c ∈ l, Atoi c = none) :
    v2iLoop length v key l = none := by
  induction l generalizing key v with
  | nil => simp at hbad
  | cons c rest ih =>
    rcases hbad with ⟨x, hx, hnone⟩
    cases hac : Atoi c with
    | none => simp [v2iLoop, hac]
    | some a =>
      have hxr : x ∈ rest := by
        rcases List.mem_cons.mp hx with rfl | hr
        · rw [hac] at hnone; cases hnone
        · exact hr
      simp [v2iLoop, hac, ih _ _ ⟨x, hxr, hnone⟩]

/-- C6 (amended): `version2Int` evaluates the spec's two-decimal-digit
positional formula in Go's 64-bit `int` arithmetic: for a version of at
most 10 components — where every weight `int(math.Pow10((n-1-i)*2))` is
exact — whose components all parse, the result is the int64 wrap of the
base-100 positional value of the components (most significant first),
additionally multiplied by 100 (wrapped) exactly when the string has
three components; it returns −1 as soon as any component is non-numeric
(or outside the int64 range, which `strconv.Atoi` rejects). The function
is total in this embedding, so malformed strings, leading/trailing dots
(which produce an empty, non-numeric component) and non-3-component
versions all take the −1 branch or the general formula — never a
panic. -/
theorem version2Int_spec (s : String) :
    ((stringsSplitDot s).length ≤ 10 →
      (∀ c ∈ stringsSplitDot s, (Atoi c).isSome) →
      version2Int s = wrap64 (base100Value ((stringsSplitDot s).filterMap Atoi)
        * (if (stringsSplitDot s).length = 3 then 100 else 1)))
  ∧ ((∃ c ∈ stringsSplitDot s, Atoi c = none) →
      version2Int s = -1) := by
  constructor
  · intro hsmall hall
    simp only [version2Int]
    rw [v2iLoop_some _ 0 _ 0 (by simp) hsmall (by decide) hall]
    by_cases h3 : (stringsSplitDot s).length = 3
    · simp only [h3, if_pos, zero_add, wrap64_mul_left]
    · simp [h3]
  · intro hbad
    simp only [version2Int]
    rw [v2iLoop_none _ 0 _ 0 hbad]

/-- C6 witness: a three-component version with a two-digit patch level,
and a leading dot degrading to −1. -/
theorem version2Int_spec_witness :
    version2Int ("2.0.10") = 2001000 ∧ version2Int (".2.6") = -1 := by
  constructor
  · have h := (version2Int_spec ("2.0.10")).1 (by decide) (by decide)
    rw [h]; decide
  · exact (version2Int_spec (".2.6")).2 ⟨"", by decide, by decide⟩

/-- C6 counterexample: the claim's unbounded positional formula fails
where Go's 64-bit arithmetic wraps or the Pow10 weight saturates. For
"9223372036854775807.0" both components pass the int64 check of
`strconv.Atoi`, yet multiplying by the weight 100 wraps to −100 — not the
positional value 922337203685477580700; for an 11-component version the
leading weight `int(math.Pow10(20))` saturates to the minimum int64, so
the result differs even from the wrapped positional value. -/
theorem version2Int_wrap_cex :
    version2Int ("9223372036854775807.0") = -100
  ∧ ((-100 : Int)
      ≠ base100Value ((stringsSplitDot ("9223372036854775807.0")).filterMap Atoi)
        * (if (stringsSplitDot ("9223372036854775807.0")).length = 3 then 100 else 1))
  ∧ version2Int ("1.0.0.0.0.0.0.0.0.0.0") = -9223372036854775808
  ∧ ((-9223372036854775808 : Int)
      ≠ wrap64 (base100Value ((stringsSplitDot ("1.0.0.0.0.0.0.0.0.0.0")).filterMap Atoi)
          * (if (stringsSplitDot ("1.0.0.0.0.0.0.0.0.0.0")).length = 3 then 100 else 1))) := by
  refine ⟨by decide, by decide, by decide, by decide⟩

/-- C2: `isSupportResponseAttachment` returns false for the empty string,
for every version string with a non-numeric component (any component
`strconv.Atoi` rejects, such as in "x.y.z"), for "2.0.10", "2.6.2" and
every version whose encoding lies strictly between theirs (the excluded
band), and returns true for "2.6.3" and every version encoding above the
band (which is automatically at or above the lowest supported version
constant). -/
theorem isSupportResponseAttachment_spec :
    isSupportResponseAttachment ("") = false
  ∧ isSupportResponseAttachment ("x.y.z") = false
  ∧ isSupportResponseAttachment ("2.0.10") = false
  ∧ isSupportResponseAttachment ("2.6.2") = false
  ∧ (∀ s : String, 2001000 < version2Int s → version2Int s < 2060200 →
      isSupportResponseAttachment s = false)
  ∧ isSupportResponseAttachment ("2.6.3") = true
  ∧ (∀ s : String, 2060200 < version2Int s → isSupportResponseAttachment s = true)
  ∧ (∀ s : String, (∃ c ∈ stringsSplitDot s, Atoi c = none) →
      isSupportResponseAttachment s = false) := by
  refine ⟨by decide, by decide, by decide, by decide, ?_, by decide, ?_, ?_⟩
  · intro s h1 h2
    have hs : s ≠ "" := by
      intro he
      rw [he, show version2Int ("") = -1 by decide] at h1
      omega
    have hne : ¬ version2Int s = -1 := by omega
    simp only [isSupportResponseAttachment, isSupportResponseAttachmentSt, versionInt,
      List.find?_nil, if_neg hs, if_neg hne]
    rw [if_pos ⟨by omega, by omega⟩]
  · intro s h1
    have hs : s ≠ "" := by
      intro he
      rw [he, show version2Int ("") = -1 by decide] at h1
      omega
    have hne : ¬ version2Int s = -1 := by omega
    simp only [isSupportResponseAttachment, isSupportResponseAttachmentSt, versionInt,
      List.find?_nil, if_neg hs, if_neg hne]
    rw [if_neg (by omega)]
    simp only [LOWEST_VERSION_FOR_RESPONSE_ATTACHMENT, ge_iff_le, decide_eq_true_eq]
    omega
  · intro s hbad
    by_cases hs : s = ""
    · rw [hs]; decide
    · have hneg : version2Int s = -1 := by
        simp only [version2Int]
        rw [v2iLoop_none _ 0 _ 0 hbad]
      simp only [isSupportResponseAttachment, isSupportResponseAttachmentSt, versionInt,
        List.find?_nil, if_neg hs, hneg]
      simp

/-- C2 witness: a version strictly inside the excluded band, one above it,
and one with a non-numeric middle component. -/
theorem isSupportResponseAttachment_spec_witness :
    isSupportResponseAttachment ("2.6.1") = false
  ∧ isSupportResponseAttachment ("2.7.0") = true
  ∧ isSupportResponseAttachment ("2.x.3") = false := by
  refine ⟨?_, ?_, ?_⟩
  · exact isSupportResponseAttachment_spec.2.2.2.2.1 ("2.6.1") (by decide) (by decide)
  · exact isSupportResponseAttachment_spec.2.2.2.2.2.2.1 ("2.7.0") (by decide)
  · exact isSupportResponseAttachment_spec.2.2.2.2.2.2.2 ("2.x.3") ⟨"x", by decide, by decide⟩

/-- C3 (amended): the resolver consults the version cache keyed by the
exact input string — a cache hit bypasses `version2Int` entirely and the
band/threshold test runs on the cached integer — but the source never
stores anything in the cache: every call returns the cache unchanged, so
a second call with the same string re-parses. -/
theorem version_cache_readonly :
    (∀ (cache : List (String × Int)) (version : String),
      (isSupportResponseAttachmentSt cache version).2 = cache)
  ∧ (∀ (cache : List (String × Int)) (version : String) (n : Int),
      version ≠ "" →
      cache.find? (fun p => p.1 = version) = some (version, n) →
      (isSupportResponseAttachmentSt cache version).1 =
        (if 2001000 ≤ n ∧ n ≤ 2060200 then false
         else decide (n ≥ LOWEST_VERSION_FOR_RESPONSE_ATTACHMENT))) := by
  constructor
  · intro cache version
    simp only [isSupportResponseAttachmentSt]
    split
    · rfl
    · split
      · rfl
      · split <;> rfl
  · intro cache version n hv hfind
    simp only [isSupportResponseAttachmentSt, if_neg hv, hfind]
    split <;> rfl

/-- C3 witness: a cached entry for a string `version2Int` cannot parse is
used as is — the hit bypasses re-parsing. -/
theorem version_cache_readonly_witness :
    (isSupportResponseAttachmentSt [("weird", 2070000)] ("weird")).1 = true := by
  have h := version_cache_readonly.2 [("weird", 2070000)] ("weird") 2070000
    (by decide) (by decide)
  rw [h]
  decide

/-- C3 counterexample: a call that successfully parses "2.6.3" (and
returns true) leaves the process-wide cache without any entry for
"2.6.3", so a second call cannot find a cache hit — the claimed store
never happens. -/
theorem version_cache_no_store_cex :
    (isSupportResponseAttachmentSt versionInt ("2.6.3")).1 = true
  ∧ ((isSupportResponseAttachmentSt versionInt ("2.6.3")).2).find?
      (fun p => p.1 = "2.6.3") = none := by
  constructor
  · decide
  · decide

/-- C9: when the decoded input is a (non-nil) slice but the destination,
after the pointer-following loop, is not of slice type, `CopySlice` panics
inside `reflect.MakeSlice` — there is no error-returning branch for a
non-slice destination in this layer. -/
theorem CopySlice_nonslice_dest_crash (e : GoTy) (elems : List GoVal) (outV od : GoVal)
    (hout : derefPtrs outV = some od)
    (hk : (typeOf od).kind ≠ GoKind.kSlice) :
    CopySlice (GoVal.vSlice e false elems) outV
      = .crash ("reflect.MakeSlice of non-slice type") := by
  simp only [CopySlice, Bool.false_eq_true, if_false, hout]
  cases hod : typeOf od with
  | tSlice outE => rw [hod] at hk; exact absurd rfl hk
  | tInt => rfl
  | tInt32 => rfl
  | tFloat64 => rfl
  | tString => rfl
  | tIface => rfl
  | tThrow => rfl
  | tArray n e' => rfl
  | tMap k w => rfl
  | tPtr t => rfl

/-- C9 witness: a slice of ints into a `*int` destination. -/
theorem CopySlice_nonslice_dest_crash_witness :
    CopySlice (GoVal.vSlice GoTy.tInt false [GoVal.vInt 1])
      (GoVal.vPtr GoTy.tInt (some (GoVal.vInt 0)))
      = .crash ("reflect.MakeSlice of non-slice type") :=
  CopySlice_nonslice_dest_crash GoTy.tInt [GoVal.vInt 1] _ (GoVal.vInt 0) rfl (by decide)

/-- C4 (amended): for every decoded non-nil slice and every destination
that dereferences to a slice-typed location, `CopySlice` allocates a new
destination slice of the source's length, stores it through the
destination pointer, and either fails — on a non-empty source with
unassignable element types — with an error naming the source element
type and the destination slice type (not the element type alone, and
with no index: the check compares the two static element types,
identical at every index), leaving the destination holding the fresh
zero-filled slice, or copies all elements in order into the destination;
on these inputs it never panics. (On a non-slice-typed destination it
panics instead — see C9 — and an array-kind source panics in `IsNil`.) -/
theorem CopySlice_slice_dest_behavior (inE outE : GoTy) (elems : List GoVal) (outV od : GoVal)
    (hout : derefPtrs outV = some od)
    (hty : typeOf od = GoTy.tSlice outE) :
    CopySlice (GoVal.vSlice inE false elems) outV =
      (if elems.isEmpty = false ∧ AssignableTo inE outE = false then
        ROut.fail ("in element type [" ++ inE.str ++ "] can not assign to out element type ["
          ++ (GoTy.tSlice outE).str ++ "]")
          (some (setAtDeref outV (GoVal.vSlice outE false
            (List.replicate elems.length (zeroVal outE)))))
      else ROut.ok (setAtDeref outV (GoVal.vSlice outE false elems))) := by
  simp only [CopySlice, Bool.false_eq_true, if_false, hout, hty, copyLoop_spec]
  split_ifs with hc
  · rfl
  · rfl

/-- C4 witness: three ints copy into an `*[]int` destination, in order and
with the source's length. -/
theorem CopySlice_slice_dest_behavior_witness :
    CopySlice (GoVal.vSlice GoTy.tInt false [GoVal.vInt 1, GoVal.vInt 2, GoVal.vInt 3])
      (GoVal.vPtr (GoTy.tSlice GoTy.tInt) (some (GoVal.vSlice GoTy.tInt false [])))
      = .ok (GoVal.vPtr (GoTy.tSlice GoTy.tInt)
          (some (GoVal.vSlice GoTy.tInt false [GoVal.vInt 1, GoVal.vInt 2, GoVal.vInt 3]))) := by
  have h := CopySlice_slice_dest_behavior GoTy.tInt GoTy.tInt
    [GoVal.vInt 1, GoVal.vInt 2, GoVal.vInt 3]
    (GoVal.vPtr (GoTy.tSlice GoTy.tInt) (some (GoVal.vSlice GoTy.tInt false [])))
    (GoVal.vSlice GoTy.tInt false []) rfl rfl
  simpa [AssignableTo, setAtDeref] using h

/-- C4 counterexample: the claim as stated quantifies over every non-nil
pointer destination and promises no panic and errors naming both element
types and the index context; but (1) a `*int` destination makes
`CopySlice` panic in `reflect.MakeSlice`, (2) an array-kind source makes
the coercion layer panic in `IsNil`, and (3) the mismatch error names the
destination slice type `[]float64` — not the element type — and no
index. -/
theorem CopySlice_claim_cex :
    (CopySlice (GoVal.vSlice GoTy.tInt false [GoVal.vInt 1, GoVal.vInt 2])
      (GoVal.vPtr GoTy.tInt (some (GoVal.vInt 0)))
      = .crash ("reflect.MakeSlice of non-slice type"))
  ∧ (ReflectResponse (some (GoVal.vArr 2 GoTy.tInt [GoVal.vInt 1, GoVal.vInt 2]))
      (some (GoVal.vPtr (GoTy.tSlice GoTy.tInt) (some (GoVal.vSlice GoTy.tInt false []))))
      = .crash ("reflect: call of reflect.Value.IsNil on array Value"))
  ∧ (CopySlice (GoVal.vSlice GoTy.tInt false [GoVal.vInt 1])
      (GoVal.vPtr (GoTy.tSlice GoTy.tFloat64) (some (GoVal.vSlice GoTy.tFloat64 false [])))
      = .fail ("in element type [int] can not assign to out element type [[]float64]")
          (some (GoVal.vPtr (GoTy.tSlice GoTy.tFloat64)
            (some (GoVal.vSlice GoTy.tFloat64 false [GoVal.vFloat64 0]))))) :=
  ⟨rfl, rfl, rfl⟩

/-- C10: the value-with-attachments branch of `unpackResponseBody` stores
the decoded attachments into the destination before invoking the value
coercion, so when the coercion fails the returned error leaves the
destination's attachments already overwritten with the new map (and the
result-value destination holding whatever the coercion's error path wrote
through it, e.g. the fresh zero-filled slice of `reflect.MakeSlice`). -/
theorem unpack_attachments_before_coercion (rsp : HVal) (m : List (String × String))
    (rest : List HVal) (r₀ : Response) (msg : String) (dest : Option GoVal)
    (hco : ReflectResponse rsp.toGo r₀.RspObj = .fail msg dest) :
    unpackResponseBody
      (HVal.hInt32 RESPONSE_VALUE_WITH_ATTACHMENTS :: rsp :: HVal.hAttach m :: rest)
      (.resp r₀)
      = .uerr msg { r₀ with RspObj := dest, Attachments := m } := by
  simp [unpackResponseBody, Decode, EnsureResponse, reflectStep,
    RESPONSE_WITH_EXCEPTION, RESPONSE_WITH_EXCEPTION_WITH_ATTACHMENTS,
    RESPONSE_VALUE, RESPONSE_VALUE_WITH_ATTACHMENTS, hco]

/-- C10 witness: a failing slice coercion returns the type-mismatch error
while the destination keeps the freshly decoded attachments map, its
result slot now holding the zero-filled one-element string slice written
by `reflect.MakeSlice` before the failing check. -/
theorem unpack_attachments_before_coercion_witness :
    unpackResponseBody
      [HVal.hInt32 RESPONSE_VALUE_WITH_ATTACHMENTS,
       HVal.hObj (GoVal.vSlice GoTy.tInt false [GoVal.vInt 1]),
       HVal.hAttach [("k", "v")]]
      (.resp ⟨some (GoVal.vPtr (GoTy.tSlice GoTy.tString)
        (some (GoVal.vSlice GoTy.tString false []))), none, [("old", "a")]⟩)
      = .uerr ("in element type [int] can not assign to out element type [[]string]")
          ⟨some (GoVal.vPtr (GoTy.tSlice GoTy.tString)
            (some (GoVal.vSlice GoTy.tString false [GoVal.vString ""]))), none, [("k", "v")]⟩ :=
  unpack_attachments_before_coercion
    (HVal.hObj (GoVal.vSlice GoTy.tInt false [GoVal.vInt 1])) [("k", "v")] []
    ⟨some (GoVal.vPtr (GoTy.tSlice GoTy.tString)
      (some (GoVal.vSlice GoTy.tString false []))), none, [("old", "a")]⟩
    ("in element type [int] can not assign to out element type [[]string]")
    (some (GoVal.vPtr (GoTy.tSlice GoTy.tString)
      (some (GoVal.vSlice GoTy.tString false [GoVal.vString ""])))) rfl

/-- `be64` always yields eight bytes. -/
theorem be64_length (u : Nat) : (be64 u).length = 8 := by simp [be64]

/-- `be32` always yields four bytes. -/
theorem be32_length (u : Nat) : (be32 u).length = 4 := by simp [be32]

/-- The assembled header is always exactly 16 bytes. -/
theorem mkHeaderBytes_length (header : DubboHeader) : (mkHeaderBytes header).length = 16 := by
  by_cases hb : header.Type' = PackageHeartbeat <;>
    by_cases hst : header.ResponseStatus ≠ 0 <;>
    simp [mkHeaderBytes, putBytes, be64, DubboResponseHeartbeatHeader,
      DubboResponseHeaderBytes, hb, hst]

/-- The pre-patch buffer is the 16 header bytes, the encoded body and the
terminator. -/
theorem packBuffer_length (enc : HVal → List Nat) (header : DubboHeader) (ret : RetInput) :
    (packBuffer enc header ret).length
      = 17 + (flattenBytes ((packBodyValues header (EnsureResponse ret)).map enc)).length := by
  simp [packBuffer, encNull, mkHeaderBytes_length]
  omega

/-- Dropping the four template bytes exposes the correlation-id bytes. -/
theorem drop4_take8 (x0 x1 x2 x3 : Nat) (mid r : List Nat) (hmid : mid.length = 8) :
    (([x0, x1, x2, x3] ++ mid ++ r).drop 4).take 8 = mid := by
  have h : ([x0, x1, x2, x3] ++ mid ++ r).drop 4 = mid ++ r := by simp
  rw [h, ← hmid, List.take_left]

/-- Dropping the first twelve bytes exposes the patched length word. -/
theorem drop12_take4 (x0 x1 x2 x3 : Nat) (mid p r : List Nat) (hmid : mid.length = 8)
    (hp : p.length = 4) :
    (([x0, x1, x2, x3] ++ mid ++ p ++ r).drop 12).take 4 = p := by
  have h2 : [x0, x1, x2, x3] ++ mid ++ p ++ r = ([x0, x1, x2, x3] ++ mid) ++ (p ++ r) := by
    simp
  have h : ([x0, x1, x2, x3] ++ mid ++ p ++ r).drop 12 = p ++ r := by
    rw [h2, show (12 : Nat) = ([x0, x1, x2, x3] ++ mid).length by simp [hmid], List.drop_left]
  rw [h, ← hp, List.take_left]

/-- Patching a 4-byte word at offset 12 of a buffer that starts with a
16-byte header rewrites exactly bytes 12-15. -/
theorem layout_core (a0 a1 a2 a3 : Nat) (mid patch tail : List Nat)
    (hmid : mid.length = 8) (hpatch : patch.length = 4) :
    putBytes (([a0, a1, a2, a3] ++ mid ++ [0, 0, 0, 0]) ++ tail) 12 patch
      = [a0, a1, a2, a3] ++ mid ++ patch ++ tail := by
  unfold putBytes
  rw [hpatch]
  have h1 : (([a0, a1, a2, a3] ++ mid ++ [0, 0, 0, 0]) ++ tail).take 12
      = [a0, a1, a2, a3] ++ mid := by
    rw [show ([a0, a1, a2, a3] ++ mid ++ [0, 0, 0, 0]) ++ tail
        = ([a0, a1, a2, a3] ++ mid) ++ ([0, 0, 0, 0] ++ tail) by simp]
    rw [show (12 : Nat) = ([a0, a1, a2, a3] ++ mid).length by simp [hmid], List.take_left]
  have h2 : (([a0, a1, a2, a3] ++ mid ++ [0, 0, 0, 0]) ++ tail).drop 16 = tail := by
    rw [show (16 : Nat) = ([a0, a1, a2, a3] ++ mid ++ [0, 0, 0, 0]).length by simp [hmid],
      List.drop_left]
  rw [h1, h2]

/-- Writing a word strictly inside the buffer keeps its length. -/
theorem putBytes_length (arr bs : List Nat) (off : Nat) (h : off + bs.length ≤ arr.length) :
    (putBytes arr off bs).length = arr.length := by
  simp only [putBytes, List.length_append, List.length_take, List.length_drop]
  omega

/-- The 16 header bytes in template/id/zeros form. -/
theorem mkHeaderBytes_eq (header : DubboHeader) :
    mkHeaderBytes header =
      [(if header.Type' = PackageHeartbeat then DubboResponseHeartbeatHeader
          else DubboResponseHeaderBytes).getD 0 0,
       (if header.Type' = PackageHeartbeat then DubboResponseHeartbeatHeader
          else DubboResponseHeaderBytes).getD 1 0,
       ((if header.Type' = PackageHeartbeat then DubboResponseHeartbeatHeader
          else DubboResponseHeaderBytes).getD 2 0) ||| (header.SerialID &&& SERIAL_MASK),
       (if header.ResponseStatus ≠ 0 then header.ResponseStatus
        else (if header.Type' = PackageHeartbeat then DubboResponseHeartbeatHeader
          else DubboResponseHeaderBytes).getD 3 0)]
      ++ be64 ((header.ID % (2 : Int) ^ 64).toNat) ++ [0, 0, 0, 0] := by
  by_cases hb : header.Type' = PackageHeartbeat <;>
    by_cases hst : header.ResponseStatus ≠ 0 <;>
    simp [mkHeaderBytes, putBytes, be64, DubboResponseHeartbeatHeader,
      DubboResponseHeaderBytes, hb, hst]

/-- C5: every frame `packResponse` returns carries the serialization id
OR-ed into the low 5 bits (`SERIAL_MASK`) of byte 2 of the kind-selected
template, the status in byte 3 exactly when the status is non-zero
(byte 3 of the template otherwise), the 64-bit correlation id big-endian
in bytes 4-11 (`uint64` conversion of the signed id), and the value
total length − 16 big-endian in bytes 12-15, patched after the body was
serialized. -/
theorem packResponse_header_layout (enc : HVal → List Nat) (header : DubboHeader)
    (ret : RetInput) (bytes : List Nat)
    (h : packResponse enc header ret = .ok bytes) :
    bytes.getD 2 0 =
      ((if header.Type' = PackageHeartbeat then DubboResponseHeartbeatHeader
        else DubboResponseHeaderBytes).getD 2 0) ||| (header.SerialID &&& SERIAL_MASK)
  ∧ bytes.getD 3 0 =
      (if header.ResponseStatus ≠ 0 then header.ResponseStatus
       else (if header.Type' = PackageHeartbeat then DubboResponseHeartbeatHeader
        else DubboResponseHeaderBytes).getD 3 0)
  ∧ (bytes.drop 4).take 8 = be64 ((header.ID % (2 : Int) ^ 64).toNat)
  ∧ (bytes.drop 12).take 4 = be32 (bytes.length - HEADER_LENGTH) := by
  simp only [packResponse] at h
  by_cases hlen : (packBuffer enc header ret).length > DEFAULT_LEN
  · rw [if_pos hlen] at h
    cases h
  rw [if_neg hlen] at h
  have hm : ((packBuffer enc header ret).length - HEADER_LENGTH) % 2 ^ 32
      = (packBuffer enc header ret).length - HEADER_LENGTH := by
    apply Nat.mod_eq_of_lt
    simp only [DEFAULT_LEN, not_lt] at hlen
    simp only [HEADER_LENGTH]
    omega
  rw [hm] at h
  injection h with h
  subst h
  have hbuf : packBuffer enc header ret
      = ((mkHeaderBytes header).take 4
          ++ be64 ((header.ID % (2 : Int) ^ 64).toNat) ++ [0, 0, 0, 0])
        ++ (flattenBytes ((packBodyValues header (EnsureResponse ret)).map enc) ++ [78]) := by
    simp only [packBuffer, encNull, List.append_assoc]
    rw [mkHeaderBytes_eq]
    simp
  have hbnd : 12 + (be32 ((packBuffer enc header ret).length - HEADER_LENGTH)).length
      ≤ (packBuffer enc header ret).length := by
    rw [be32_length, packBuffer_length]
    omega
  rw [putBytes_length _ _ _ hbnd]
  have htake4 : (mkHeaderBytes header).take 4 =
      [(if header.Type' = PackageHeartbeat then DubboResponseHeartbeatHeader
          else DubboResponseHeaderBytes).getD 0 0,
       (if header.Type' = PackageHeartbeat then DubboResponseHeartbeatHeader
          else DubboResponseHeaderBytes).getD 1 0,
       ((if header.Type' = PackageHeartbeat then DubboResponseHeartbeatHeader
          else DubboResponseHeaderBytes).getD 2 0) ||| (header.SerialID &&& SERIAL_MASK),
       (if header.ResponseStatus ≠ 0 then header.ResponseStatus
        else (if header.Type' = PackageHeartbeat then DubboResponseHeartbeatHeader
          else DubboResponseHeaderBytes).getD 3 0)] := by
    rw [mkHeaderBytes_eq]
    simp
  rw [hbuf, htake4, layout_core _ _ _ _ _ _ _ (be64_length _) (be32_length _)]
  refine ⟨by simp, by simp, ?_, ?_⟩
  · exact drop4_take8 _ _ _ _ _ _ (be64_length _)
  · exact drop12_take4 _ _ _ _ _ _ _ (be64_length _) (be32_length _)

/-- C5 witness: a concrete frame (trivial external encoding) shows the
layout at serialization id 2, status 20, correlation id 1. -/
theorem packResponse_header_layout_witness :
    ([218, 187, 2, 20, 0, 0, 0, 0, 0, 0, 0, 1, 0, 0, 0, 1, 78] : List Nat).getD 2 0
      = ((if (⟨2, PackageType.response, 20, 1⟩ : DubboHeader).Type' = PackageHeartbeat
          then DubboResponseHeartbeatHeader else DubboResponseHeaderBytes).getD 2 0)
        ||| ((2 : Nat) &&& SERIAL_MASK)
  ∧ ([218, 187, 2, 20, 0, 0, 0, 0, 0, 0, 0, 1, 0, 0, 0, 1, 78] : List Nat).getD 3 0
      = (if (20 : Nat) ≠ 0 then 20
         else (if (⟨2, PackageType.response, 20, 1⟩ : DubboHeader).Type' = PackageHeartbeat
          then DubboResponseHeartbeatHeader else DubboResponseHeaderBytes).getD 3 0)
  ∧ (([218, 187, 2, 20, 0, 0, 0, 0, 0, 0, 0, 1, 0, 0, 0, 1, 78] : List Nat).drop 4).take 8
      = be64 (((1 : Int) % (2 : Int) ^ 64).toNat)
  ∧ (([218, 187, 2, 20, 0, 0, 0, 0, 0, 0, 0, 1, 0, 0, 0, 1, 78] : List Nat).drop 12).take 4
      = be32 (([218, 187, 2, 20, 0, 0, 0, 0, 0, 0, 0, 1, 0, 0, 0, 1, 78] : List Nat).length
          - HEADER_LENGTH) := by
  exact packResponse_header_layout (fun _ => []) ⟨2, PackageType.response, 20, 1⟩
    (.resp ⟨some (GoVal.vInt 7), none, []⟩)
    [218, 187, 2, 20, 0, 0, 0, 0, 0, 0, 0, 1, 0, 0, 0, 1, 78] (by rfl)

/-- C7: whenever the encoder buffer (header, body and terminator) exceeds
`DEFAULT_LEN` (8 MiB), `packResponse` returns no bytes, only an error
naming the actual size and the maximum size; the length patch never runs,
so no truncated buffer escapes. -/
theorem packResponse_oversize (enc : HVal → List Nat) (header : DubboHeader) (ret : RetInput)
    (h : (packBuffer enc header ret).length > DEFAULT_LEN) :
    packResponse enc header ret
      = .error ("Data length " ++ toString (packBuffer enc header ret).length
          ++ " too large, max payload " ++ toString DEFAULT_LEN) := by
  simp only [packResponse, if_pos h]

/-- C7 witness: a heartbeat body whose single encoded value is 8 400 000
bytes long overflows the 8 MiB cap. -/
theorem packResponse_oversize_witness :
    packResponse (fun _ => List.replicate 8400000 0)
      ⟨2, PackageType.heartbeat, 20, 1⟩ (.objIn none)
      = .error ("Data length 8400017 too large, max payload 8388608") := by
  have hl : (packBuffer (fun _ => List.replicate 8400000 0)
      ⟨2, PackageType.heartbeat, 20, 1⟩ (.objIn none)).length = 8400017 := by
    rw [packBuffer_length]
    rw [show packBodyValues ⟨2, PackageType.heartbeat, 20, 1⟩
        (EnsureResponse (RetInput.objIn none)) = [HVal.hNull] from rfl]
    rw [show ([HVal.hNull]).map (fun _ => List.replicate 8400000 (0 : Nat))
        = [List.replicate 8400000 0] from rfl]
    rw [show flattenBytes [List.replicate 8400000 (0 : Nat)]
        = List.replicate 8400000 (0 : Nat) ++ [] from rfl]
    rw [List.append_nil, List.length_replicate]
  have h := packResponse_oversize (fun _ => List.replicate 8400000 0)
    ⟨2, PackageType.heartbeat, 20, 1⟩ (.objIn none) (by rw [hl]; decide)
  rw [h, hl]
  rfl

/-- C8: a body whose leading decoded discriminator is not one of the six
tag constants — another `int32`, or any non-`int32` value — makes
`unpackResponseBody` return success immediately, leaving the destination
outcome exactly as it was handed in (its default null state). -/
theorem unpack_unknown_tag_noop :
    (∀ (i : Int) (rest : List HVal) (resp : RetInput),
      i ≠ RESPONSE_WITH_EXCEPTION → i ≠ RESPONSE_WITH_EXCEPTION_WITH_ATTACHMENTS →
      i ≠ RESPONSE_VALUE → i ≠ RESPONSE_VALUE_WITH_ATTACHMENTS →
      i ≠ RESPONSE_NULL_VALUE → i ≠ RESPONSE_NULL_VALUE_WITH_ATTACHMENTS →
      unpackResponseBody (HVal.hInt32 i :: rest) resp = .uok (EnsureResponse resp))
  ∧ (∀ (w : HVal) (rest : List HVal) (resp : RetInput),
      (∀ j : Int, w ≠ HVal.hInt32 j) →
      unpackResponseBody (w :: rest) resp = .uok (EnsureResponse resp)) := by
  constructor
  · intro i rest resp h0 h5 h1 h4 h2 h3
    simp only [RESPONSE_WITH_EXCEPTION, RESPONSE_WITH_EXCEPTION_WITH_ATTACHMENTS,
      RESPONSE_VALUE, RESPONSE_VALUE_WITH_ATTACHMENTS, RESPONSE_NULL_VALUE,
      RESPONSE_NULL_VALUE_WITH_ATTACHMENTS] at h0 h5 h1 h4 h2 h3
    simp [unpackResponseBody, Decode, RESPONSE_WITH_EXCEPTION,
      RESPONSE_WITH_EXCEPTION_WITH_ATTACHMENTS, RESPONSE_VALUE,
      RESPONSE_VALUE_WITH_ATTACHMENTS, RESPONSE_NULL_VALUE,
      RESPONSE_NULL_VALUE_WITH_ATTACHMENTS, h0, h5, h1, h4, h2, h3]
  · intro w rest resp hw
    cases w with
    | hInt32 j => exact absurd rfl (hw j)
    | hNull => simp [unpackResponseBody, Decode]
    | hString s => simp [unpackResponseBody, Decode]
    | hThrowable m => simp [unpackResponseBody, Decode]
    | hAttach m => simp [unpackResponseBody, Decode]
    | hObj v => simp [unpackResponseBody, Decode]

/-- C8 witness: the unknown `int32` tag 99 and a non-`int32` leading value
are both accepted as no-ops on a default-state destination. -/
theorem unpack_unknown_tag_noop_witness :
    (unpackResponseBody [HVal.hInt32 99] (.resp ⟨none, none, []⟩)
      = .uok ⟨none, none, []⟩)
  ∧ (unpackResponseBody [HVal.hString ("future")] (.resp ⟨none, none, []⟩)
      = .uok ⟨none, none, []⟩) := by
  constructor
  · exact unpack_unknown_tag_noop.1 99 [] (.resp ⟨none, none, []⟩)
      (by decide) (by decide) (by decide) (by decide) (by decide) (by decide)
  · exact unpack_unknown_tag_noop.2 (HVal.hString ("future")) [] (.resp ⟨none, none, []⟩)
      (fun j h => nomatch h)

end Hessian2
